import Mathlib

/-!
Verification of the SBF schedule editor's time/position logic.

The JavaScript source (`script.js`, class `ScheduleApp`) is shallowly
embedded below.  JavaScript numbers are modelled as exact rationals (`ℚ`)
for pixel quantities and as integers (`ℤ`) for minute counts; every value
flowing through the functions verified here stays well inside the range
where IEEE-754 doubles behave like exact rationals on these operations.
Strings are modelled as Lean `String`s; the JavaScript string operations
used by the source (`split`, `trim`, `Number`, `String(..).padStart`) are
embedded as structurally recursive functions so that they evaluate inside
the kernel.
-/

/-- Models JavaScript `Math.round`: round to the nearest integer, ties
toward positive infinity, i.e. `⌊x + 1/2⌋`. -/
def jsRound (x : ℚ) : ℤ := ⌊x + 1 / 2⌋

/-- Models `String(n).padStart(2, '0')` applied to an already rendered
string: prepend `'0'` characters until the length is at least 2. -/
def padStart2 (s : String) : String :=
  if s.length ≥ 2 then s else if s.length = 1 then "0" ++ s else "00"

/-- Minute component used by `formatTime`: models `totalMin % 60`
(JavaScript `%` is the truncation-based remainder, `Int.tmod`). -/
def minutePart (totalMin : ℤ) : ℤ := Int.tmod totalMin 60

/-- Raw hour component used by `formatTime`: models
`Math.floor(totalMin / 60)`, which is floor division. -/
def hourPartRaw (totalMin : ℤ) : ℤ := Int.fdiv totalMin 60

/-- Hour component after the 24-hour wrap of `formatTime`: models
`if (h >= 24) h = h % 24;`. -/
def hourPart (totalMin : ℤ) : ℤ :=
  let h := hourPartRaw totalMin
  if h ≥ 24 then Int.tmod h 24 else h

/-- Embedding of `ScheduleApp.formatTime` (script.js:908-913):
`h = Math.floor(totalMin/60); m = totalMin % 60; if (h >= 24) h = h % 24;`
then both components are rendered with `String(..).padStart(2, '0')` and
joined with `":"`. -/
def formatTime (totalMin : ℤ) : String :=
  padStart2 (toString (hourPart totalMin)) ++ ":" ++ padStart2 (toString (minutePart totalMin))

/-- Splits a character list at every occurrence of `sep`, keeping empty
pieces, exactly like JavaScript `String.prototype.split` with a
single-character separator. -/
def splitListChar (sep : Char) : List Char → List (List Char)
  | [] => [[]]
  | c :: cs =>
    if c = sep then [] :: splitListChar sep cs
    else
      match splitListChar sep cs with
      | [] => [[c]]
      | l :: ls => (c :: l) :: ls

/-- Models JavaScript `s.split(sep)` for a one-character separator. -/
def jsSplit (sep : Char) (s : String) : List String :=
  (splitListChar sep s.data).map (fun l => String.mk l)

/-- Accumulator loop reading a nonnegative decimal numeral. -/
def digitsToNatAux : List Char → ℕ → Option ℕ
  | [], acc => some acc
  | c :: cs, acc =>
    if c.isDigit then digitsToNatAux cs (acc * 10 + (c.toNat - 48)) else none

/-- Models JavaScript `Number(s)` on the strings this program feeds it:
a nonempty string of decimal digits parses to the corresponding natural
number, anything else (in particular anything `formatTime` never emits as
a component) is `none`, standing for `NaN`. -/
def jsNumber (s : String) : Option ℕ :=
  match s.data with
  | [] => none
  | l => digitsToNatAux l 0

/-- Embedding of `act.startTime.split(':').map(Number)` followed by the
destructuring `const [h, m] = ...` (script.js:781-782, 886-887): take the
first two pieces; a missing or non-numeric piece yields `none` (`NaN`). -/
def parseTime (s : String) : Option (ℕ × ℕ) :=
  match jsSplit ':' s with
  | a :: b :: _ =>
    match jsNumber a, jsNumber b with
    | some x, some y => some (x, y)
    | _, _ => none
  | _ => none

/-- Canonical `"HH:MM"` rendering of an hour/minute pair, the form every
valid time string in this program takes (two zero-padded components joined
by a colon). -/
def mkTime (h m : ℕ) : String :=
  padStart2 (toString h) ++ ":" ++ padStart2 (toString m)

/-- Embedding of `this.CONFIG` (script.js:16-22); the storage key is
irrelevant to the claims and omitted. -/
structure Config where
  startHour : ℤ
  endHour : ℤ
  pixelsPerHour : ℚ
  snapMinutes : ℤ
deriving DecidableEq

/-- Embedding of the top-pixel computation of `createActCard`
(script.js:781-792): parse the start time, take minutes past
`CONFIG.startHour`, and scale by `pixelsPerHour / 60`.  `none` models the
`NaN` flowing out of an unparseable time string. -/
def createActTopPx (startTime : String) (cfg : Config) : Option ℚ :=
  (parseTime startTime).map (fun p =>
    let startTotalMin : ℤ := p.1 * 60 + p.2
    let offsetMin : ℤ := startTotalMin - cfg.startHour * 60
    ((offsetMin : ℚ) / 60) * cfg.pixelsPerHour)

/-- Embedding of `minutesFromStart` in `handleDrop` (script.js:879):
`(relativeY / CONFIG.pixelsPerHour) * 60`. -/
def minutesFromStart (relativeY : ℚ) (cfg : Config) : ℚ :=
  relativeY / cfg.pixelsPerHour * 60

/-- Embedding of `snappedMinutes` in `handleDrop` (script.js:880):
`Math.round(minutesFromStart / CONFIG.snapMinutes) * CONFIG.snapMinutes`. -/
def snappedMinutes (relativeY : ℚ) (cfg : Config) : ℤ :=
  jsRound (minutesFromStart relativeY cfg / (cfg.snapMinutes : ℚ)) * cfg.snapMinutes

/-- Embedding of the snapped-then-clamped start minute of `handleDrop`
(script.js:890-896): `newStartTotalMin = CONFIG.startHour*60 + snappedMinutes`,
then `Math.max(globalStartMin, Math.min(newStartTotalMin, globalEndMin - durationMin))`. -/
def dropStartMin (relativeY : ℚ) (cfg : Config) (durationMin : ℤ) : ℤ :=
  let newStartTotalMin := cfg.startHour * 60 + snappedMinutes relativeY cfg
  let globalStartMin := cfg.startHour * 60
  let globalEndMin := cfg.endHour * 60
  max globalStartMin (min newStartTotalMin (globalEndMin - durationMin))

/-- Embedding of an act record (script.js:32-41): all fields the program
stores for an act, each a string as in the serialized state. -/
structure Act where
  id : String
  stageId : String
  name : String
  startTime : String
  endTime : String
  color : String
  category : String
deriving DecidableEq

/-- Embedding of a stage record (script.js:27-30). -/
structure Stage where
  id : String
  name : String
deriving DecidableEq

/-- Embedding of a member record (member management, script.js:1040-1100):
a member has an id, a display name and a list of team names. -/
structure Member where
  id : String
  name : String
  teams : List String
deriving DecidableEq

/-- Embedding of `this.state`: the application state mutated by
`handleDrop` and friends (the `config` sub-object is modelled separately
for the settings claim). -/
structure AppState where
  stages : List Stage
  acts : List Act
  members : List Member
deriving DecidableEq

/-- Time string produced by `formatTime` when its input is `NaN`, which
is what the arithmetic of `handleDrop` produces from an unparseable act
time: `Math.floor(NaN)` and `NaN % 60` are `NaN`, `NaN >= 24` is false,
and `String(NaN).padStart(2,'0')` is `"NaN"`. -/
def jsNaNTime : String := "NaN:NaN"

/-- Embedding of the new start/end strings computed by `handleDrop`
(script.js:886-901): duration from the act's current times, then the
snapped and clamped start, then `formatTime` of start and end. -/
def dropNewTimes (act : Act) (relativeY : ℚ) (cfg : Config) : String × String :=
  match parseTime act.startTime, parseTime act.endTime with
  | some (cH, cM), some (eH, eM) =>
    let durationMin : ℤ := ((eH : ℤ) * 60 + eM) - ((cH : ℤ) * 60 + cM)
    let clampedStartMin := dropStartMin relativeY cfg durationMin
    (formatTime clampedStartMin, formatTime (clampedStartMin + durationMin))
  | _, _ => (jsNaNTime, jsNaNTime)

/-- Embedding of the mutation `handleDrop` performs on the found act
(script.js:898-901): overwrite `stageId`, `startTime` and `endTime`,
leave every other field alone. -/
def dropUpdateAct (act : Act) (stageId : String) (relativeY : ℚ) (cfg : Config) : Act :=
  let ts := dropNewTimes act relativeY cfg
  { act with stageId := stageId, startTime := ts.1, endTime := ts.2 }

/-- Embedding of `this.state.acts.find(a => a.id === id)`: the first act
in the array whose id matches, if any. -/
def findAct (actId : String) : List Act → Option Act
  | [] => none
  | a :: rest => if a.id = actId then some a else findAct actId rest

/-- In-place mutation of the first act with the given id, as performed by
`handleDrop` through the object reference returned by `acts.find(...)`. -/
def replaceFirstAct (actId : String) (a2 : Act) : List Act → List Act
  | [] => []
  | a :: rest => if a.id = actId then a2 :: rest else a :: replaceFirstAct actId a2 rest

/-- Embedding of `ScheduleApp.handleDrop` (script.js:868-906) on the
state: the early return on an empty drag id, the `find` over the acts
array, and the mutation of the found act.  `relativeY` is the already
computed drop ordinate; DOM bookkeeping, `saveState` and re-rendering have
no effect on the state fields modelled here. -/
def handleDrop (st : AppState) (dragActId stageId : String) (relativeY : ℚ) (cfg : Config) : AppState :=
  if dragActId = "" then st
  else
    match findAct dragActId st.acts with
    | none => st
    | some act =>
      { st with acts := replaceFirstAct dragActId (dropUpdateAct act stageId relativeY cfg) st.acts }

/-- Embedding of the persisted `state.config` object that `saveState`
(script.js:683-688) copies `CONFIG.startHour` / `CONFIG.endHour` into
before serializing. -/
structure PersistedConfig where
  startHour : ℤ
  endHour : ℤ
deriving DecidableEq

/-- Embedding of `ScheduleApp.handleSettingsSubmit` (script.js:988-1003)
on the configuration: reject with an alert (returning everything
unchanged) when `start >= end`, otherwise install the submitted hours and
persist them via `saveState`. -/
def handleSettingsSubmit (cfg : Config) (persisted : PersistedConfig) (start stop : ℤ) :
    Config × PersistedConfig :=
  if start ≥ stop then (cfg, persisted)
  else
    let cfg2 := { cfg with startHour := start, endHour := stop }
    (cfg2, { startHour := cfg2.startHour, endHour := cfg2.endHour })

/-- Models JavaScript `s.trim()`: strip whitespace from both ends. -/
def jsTrim (s : String) : String :=
  String.mk (((s.data.dropWhile Char.isWhitespace).reverse.dropWhile Char.isWhitespace).reverse)

/-- Embedding of the act filter of `handleIndividualExportSubmit`
(script.js:1193-1197): keep an act when its category is nonempty and,
after splitting the category on commas and trimming each entry, some team
of the member occurs among the entries (exact `includes` equality). -/
def handleIndividualExportActs (member : Member) (acts : List Act) : List Act :=
  acts.filter (fun a =>
    if a.category = "" then false
    else member.teams.any (fun team => ((jsSplit ',' a.category).map jsTrim).contains team))

/-- Minute-of-day subtraction on two parsed time strings, the
`durationMin` computation of `handleDrop` (script.js:886-888) and the
spec's `durationMinutes`. -/
def durationFromStrings (startTime stopTime : String) : Option ℤ :=
  match parseTime startTime, parseTime stopTime with
  | some (cH, cM), some (eH, eM) => some (((eH : ℤ) * 60 + eM) - ((cH : ℤ) * 60 + cM))
  | _, _ => none

/-- Modelled from the spec: the rounding mode the spec asserts, namely
round-half-away-from-zero (ties go to the integer of larger absolute
value).  Used only to compare the spec's claimed rounding with the
source's `Math.round`. -/
def roundHalfAwayFromZero (x : ℚ) : ℤ :=
  if 0 ≤ x then ⌊x + 1 / 2⌋ else -⌊-x + 1 / 2⌋

lemma toString_intCast_nat (k : ℕ) : toString ((k : ℤ)) = toString k := rfl

lemma splitListChar_cons_ne (sep c : Char) (cs : List Char) (hc : ¬ c = sep) :
    splitListChar sep (c :: cs) =
      match splitListChar sep cs with
      | [] => [[c]]
      | l :: ls => (c :: l) :: ls := by
  rw [splitListChar, if_neg hc]

lemma splitListChar_ne_nil (sep : Char) (l : List Char) : splitListChar sep l ≠ [] := by
  induction l with
  | nil => simp [splitListChar]
  | cons c cs ih =>
    by_cases hc : c = sep
    · simp [splitListChar, hc]
    · rw [splitListChar_cons_ne sep c cs hc]
      rcases hsp : splitListChar sep cs with _ | ⟨l, ls⟩
      · exact absurd hsp ih
      · simp

lemma splitListChar_of_not_mem (sep : Char) (l : List Char) (h : sep ∉ l) :
    splitListChar sep l = [l] := by
  induction l with
  | nil => rfl
  | cons c cs ih =>
    have hc : ¬ c = sep := fun hcc => h (hcc ▸ List.mem_cons_self c cs)
    have hcs : sep ∉ cs := fun hm => h (List.mem_cons_of_mem c hm)
    rw [splitListChar_cons_ne sep c cs hc, ih hcs]

lemma splitListChar_append (sep : Char) (l1 l2 : List Char) (h : sep ∉ l1) :
    splitListChar sep (l1 ++ sep :: l2) = l1 :: splitListChar sep l2 := by
  induction l1 with
  | nil => simp [splitListChar]
  | cons c cs ih =>
    have hc : ¬ c = sep := fun hcc => h (hcc ▸ List.mem_cons_self c cs)
    have hcs : sep ∉ cs := fun hm => h (List.mem_cons_of_mem c hm)
    rw [List.cons_append, splitListChar_cons_ne sep c (cs ++ sep :: l2) hc, ih hcs]

/-- On every two-digit-or-fewer numeral, the padded rendering contains no
colon and `Number` reads it back. -/
lemma pad2_colon_free_and_numeric :
    ∀ h < 100, ':' ∉ (padStart2 (toString h)).data ∧
      jsNumber (padStart2 (toString h)) = some h := by decide

lemma jsSplit_mkTime (h m : ℕ) (hh : h < 100) (hm : m < 100) :
    jsSplit ':' (mkTime h m) = [padStart2 (toString h), padStart2 (toString m)] := by
  have h1 := (pad2_colon_free_and_numeric h hh).1
  have h2 := (pad2_colon_free_and_numeric m hm).1
  have hdata : (mkTime h m).data =
      (padStart2 (toString h)).data ++ ':' :: (padStart2 (toString m)).data := by
    show (padStart2 (toString h) ++ ":" ++ padStart2 (toString m)).data = _
    rw [String.data_append, String.data_append, List.append_assoc]
    rfl
  rw [jsSplit, hdata, splitListChar_append ':' _ _ h1,
    splitListChar_of_not_mem ':' _ h2]
  rfl

lemma parseTime_mkTime (h m : ℕ) (hh : h < 100) (hm : m < 100) :
    parseTime (mkTime h m) = some (h, m) := by
  rw [parseTime, jsSplit_mkTime h m hh hm]
  simp only [(pad2_colon_free_and_numeric h hh).2, (pad2_colon_free_and_numeric m hm).2]

lemma hourPartRaw_natCast (n : ℕ) : hourPartRaw (n : ℤ) = ((n / 60 : ℕ) : ℤ) := by
  rw [hourPartRaw, Int.fdiv_eq_ediv _ (by omega), Int.ofNat_ediv]
  rfl

lemma hourPart_natCast (n : ℕ) : hourPart (n : ℤ) = (((n / 60) % 24 : ℕ) : ℤ) := by
  simp only [hourPart, hourPartRaw_natCast]
  by_cases hc : n / 60 < 24
  · rw [if_neg (by omega), Nat.mod_eq_of_lt hc]
  · rw [if_pos (by omega)]
    rfl

lemma minutePart_natCast (n : ℕ) : minutePart (n : ℤ) = ((n % 60 : ℕ) : ℤ) := rfl

lemma formatTime_natCast (n : ℕ) :
    formatTime (n : ℤ) = mkTime ((n / 60) % 24) (n % 60) := by
  rw [formatTime, mkTime, hourPart_natCast, minutePart_natCast,
    toString_intCast_nat, toString_intCast_nat]

lemma formatTime_of_lt (n : ℕ) (hn : n < 1440) :
    formatTime (n : ℤ) = mkTime (n / 60) (n % 60) := by
  rw [formatTime_natCast, Nat.mod_eq_of_lt (by omega)]

lemma parseTime_formatTime (n : ℕ) :
    parseTime (formatTime (n : ℤ)) = some ((n / 60) % 24, n % 60) := by
  rw [formatTime_natCast]
  exact parseTime_mkTime _ _ (by omega) (by omega)

lemma jsRound_intCast (k : ℤ) : jsRound (k : ℚ) = k := by
  rw [jsRound, Int.floor_int_add]
  norm_num

lemma minutesFromStart_of_offset (cfg : Config) (o : ℤ) (hp : cfg.pixelsPerHour ≠ 0) :
    minutesFromStart (((o : ℚ) / 60) * cfg.pixelsPerHour) cfg = (o : ℚ) := by
  rw [minutesFromStart]
  field_simp
  ring

lemma snappedMinutes_snap_one (cfg : Config) (relativeY : ℚ) (o : ℤ)
    (h1 : cfg.snapMinutes = 1) (ho : minutesFromStart relativeY cfg = (o : ℚ)) :
    snappedMinutes relativeY cfg = o := by
  rw [snappedMinutes, h1, ho]
  norm_num [jsRound_intCast]

lemma dropStartMin_exact (cfg : Config) (d t : ℤ) (relativeY : ℚ)
    (hsnap : snappedMinutes relativeY cfg = t - cfg.startHour * 60)
    (hlo : cfg.startHour * 60 ≤ t) (hhi : t ≤ cfg.endHour * 60 - d) :
    dropStartMin relativeY cfg d = t := by
  rw [dropStartMin, hsnap]
  omega

/-- C6: on every non-negative integer minute count, `formatTime` renders
the hour `⌊totalMin/60⌋` reduced modulo 24 and the minute `totalMin % 60`,
each zero-padded to two digits, joined by a colon. -/
theorem c6_formatTime_wraps_hour_mod24 (n : ℕ) :
    formatTime (n : ℤ) =
      padStart2 (toString ((n / 60) % 24)) ++ ":" ++ padStart2 (toString (n % 60)) :=
  formatTime_natCast n

/-- C7: the top-pixel computation of `createActCard` maps `"09:00"` to
offset 0 and `"10:00"` to offset 300 in the window `{startHour: 9,
endHour: 22}` at 300 pixels per hour. -/
theorem c7_anchor_values :
    createActTopPx "09:00" ⟨9, 22, 300, 5⟩ = some 0 ∧
    createActTopPx "10:00" ⟨9, 22, 300, 5⟩ = some 300 := by
  constructor
  · rw [createActTopPx, show parseTime "09:00" = some (9, 0) from by decide]
    norm_num
  · rw [createActTopPx, show parseTime "10:00" = some (10, 0) from by decide]
    norm_num

/-- C1: for every valid canonical time string whose minute-of-day lies in
`[startHour*60, endHour*60 - duration]`, every window with
`startHour < endHour` and every positive pixel density, converting the
time to the top pixel offset of `createActCard` and converting that
offset back through the drop computation of `handleDrop` with
`snapMinutes = 1` followed by `formatTime` returns the original string. -/
theorem c1_roundtrip_at_one_minute_snap (h m : ℕ) (s e d : ℤ) (pph : ℚ)
    (hh : h < 24) (hm : m < 60) (hwin : s < e) (hpph : 0 < pph)
    (hlo : s * 60 ≤ (h : ℤ) * 60 + m) (hhi : (h : ℤ) * 60 + m ≤ e * 60 - d) :
    (createActTopPx (mkTime h m) ⟨s, e, pph, 1⟩).map
      (fun px => formatTime (dropStartMin px ⟨s, e, pph, 1⟩ d)) = some (mkTime h m) := by
  have hparse : parseTime (mkTime h m) = some (h, m) :=
    parseTime_mkTime h m (by omega) (by omega)
  rw [createActTopPx, hparse]
  dsimp only [Option.map_some']
  have hclamp : dropStartMin
      (((((h : ℤ) * 60 + (m : ℤ) - s * 60 : ℤ) : ℚ) / 60) * pph) ⟨s, e, pph, 1⟩ d
      = (h : ℤ) * 60 + m := by
    apply dropStartMin_exact
    · apply snappedMinutes_snap_one _ _ _ rfl
      exact minutesFromStart_of_offset ⟨s, e, pph, 1⟩ ((h : ℤ) * 60 + m - s * 60)
        (ne_of_gt hpph)
    · exact hlo
    · exact hhi
  rw [hclamp]
  have hcast : ((h : ℤ) * 60 + m) = ((h * 60 + m : ℕ) : ℤ) := by push_cast; ring
  rw [hcast, formatTime_of_lt _ (by omega)]
  rw [show (h * 60 + m) / 60 = h from by omega, show (h * 60 + m) % 60 = m from by omega]

theorem c1_roundtrip_witness :
    ((9 : ℤ) * 60 ≤ (10 : ℕ) * 60 + (30 : ℕ) ∧
      ((10 : ℕ) : ℤ) * 60 + (30 : ℕ) ≤ 22 * 60 - 60 ∧ (0 : ℚ) < 300) ∧
    (createActTopPx (mkTime 10 30) ⟨9, 22, 300, 1⟩).map
      (fun px => formatTime (dropStartMin px ⟨9, 22, 300, 1⟩ 60)) = some (mkTime 10 30) :=
  ⟨⟨by decide, by decide, by decide⟩,
    c1_roundtrip_at_one_minute_snap 10 30 9 22 60 300 (by decide) (by decide) (by decide)
      (by decide) (by decide) (by decide)⟩

/-- C5 counterexample: at drop ordinate `-5/2` pixels with 60 pixels per
hour and snap 1, the scaled minutes are `-5/2`, an exact halfway point;
`handleDrop`'s `Math.round` picks `-2`, while round-half-away-from-zero
as claimed by the spec picks `-3`. -/
theorem c5_rounding_counterexample :
    snappedMinutes (-5 / 2 : ℚ) ⟨9, 22, 60, 1⟩ = -2 ∧
    roundHalfAwayFromZero
      (minutesFromStart (-5 / 2 : ℚ) ⟨9, 22, 60, 1⟩ /
        (((⟨9, 22, 60, 1⟩ : Config).snapMinutes : ℤ) : ℚ)) = -3 ∧
    ((-2 : ℤ) ≠ -3) := by
  refine ⟨?_, ?_, by decide⟩
  · norm_num [snappedMinutes, minutesFromStart, jsRound]
  · norm_num [roundHalfAwayFromZero, minutesFromStart]

/-- C5 amended: the offset-to-time conversion rounds the scaled minutes
to the nearest multiple of `snapMinutes` with ties toward positive
infinity (`Math.round` semantics): whenever the scaled minutes divided by
`snapMinutes` is exactly halfway between `k` and `k+1`, the chosen
multiple is `(k+1) * snapMinutes`, the one toward positive infinity. -/
theorem c5_amended_round_half_toward_posinf (cfg : Config) (relativeY : ℚ) (k : ℤ)
    (hhalf : minutesFromStart relativeY cfg / (cfg.snapMinutes : ℚ) = (k : ℚ) + 1 / 2) :
    snappedMinutes relativeY cfg = (k + 1) * cfg.snapMinutes := by
  rw [snappedMinutes, jsRound, hhalf]
  rw [show ((k : ℚ) + 1 / 2 + 1 / 2) = ((k + 1 : ℤ) : ℚ) by push_cast; ring]
  rw [Int.floor_intCast]

theorem c5_amended_witness :
    (minutesFromStart (25 / 2 : ℚ) ⟨9, 22, 60, 5⟩ /
        (((⟨9, 22, 60, 5⟩ : Config).snapMinutes : ℤ) : ℚ) = (2 : ℚ) + 1 / 2) ∧
    snappedMinutes (25 / 2 : ℚ) ⟨9, 22, 60, 5⟩ = (2 + 1) * (⟨9, 22, 60, 5⟩ : Config).snapMinutes :=
  ⟨by norm_num [minutesFromStart],
    c5_amended_round_half_toward_posinf ⟨9, 22, 60, 5⟩ (25 / 2) 2 (by norm_num [minutesFromStart])⟩

/-- C8: `handleSettingsSubmit` preserves the window invariant atomically:
a submitted pair with `start >= end` leaves the configuration and the
persisted hours untouched, a pair with `start < end` installs exactly the
submitted hours, and in either case `startHour < endHour` holds afterwards
when it held before. -/
theorem c8_settings_invariant (cfg : Config) (persisted : PersistedConfig) (start stop : ℤ)
    (hinv : cfg.startHour < cfg.endHour) :
    (start ≥ stop → handleSettingsSubmit cfg persisted start stop = (cfg, persisted)) ∧
    (start < stop → (handleSettingsSubmit cfg persisted start stop).1.startHour = start ∧
      (handleSettingsSubmit cfg persisted start stop).1.endHour = stop ∧
      (handleSettingsSubmit cfg persisted start stop).2.startHour = start ∧
      (handleSettingsSubmit cfg persisted start stop).2.endHour = stop) ∧
    (handleSettingsSubmit cfg persisted start stop).1.startHour <
      (handleSettingsSubmit cfg persisted start stop).1.endHour := by
  rw [handleSettingsSubmit]
  by_cases hc : start ≥ stop
  · rw [if_pos hc]
    exact ⟨fun _ => rfl, fun hlt => absurd hlt (by omega), hinv⟩
  · rw [if_neg hc]
    exact ⟨fun hge => absurd hge hc, fun _ => ⟨rfl, rfl, rfl, rfl⟩, lt_of_not_ge hc⟩

lemma minutePart_dvd_five {x : ℤ} (h5 : (5 : ℤ) ∣ x) : (5 : ℤ) ∣ minutePart x := by
  have heq := Int.tmod_add_tdiv x 60
  rw [minutePart]
  omega

/-- C2 counterexample: with act duration 47 minutes and a drop far below
the window, the clamped start is `endHour*60 - 47 = 1273`, rendered
`"21:13"`, whose minute value 13 is not divisible by 5 even though
`snapMinutes = 5`. -/
theorem c2_snap5_counterexample :
    dropStartMin 1000000 ⟨9, 22, 300, 5⟩ 47 = 1273 ∧
    formatTime 1273 = "21:13" ∧
    ¬ (5 : ℤ) ∣ minutePart 1273 := by
  refine ⟨?_, by decide, by decide⟩
  norm_num [dropStartMin, snappedMinutes, minutesFromStart, jsRound]

/-- C2 amended: the snapped-then-clamped start minute of `handleDrop`
with `snapMinutes = 5`, rendered by `formatTime`, has a minute value
divisible by 5 provided the act's duration in minutes is divisible by 5
(the clamp bound `endHour*60 - duration` is otherwise not a multiple
of 5). -/
theorem c2_amended_snap5_minute_divisible (relativeY pph : ℚ) (s e d : ℤ)
    (hd : (5 : ℤ) ∣ d) :
    (5 : ℤ) ∣ minutePart (dropStartMin relativeY ⟨s, e, pph, 5⟩ d) := by
  apply minutePart_dvd_five
  have hsn : (5 : ℤ) ∣ snappedMinutes relativeY ⟨s, e, pph, 5⟩ := by
    rw [snappedMinutes]
    exact dvd_mul_left 5 _
  rw [dropStartMin]
  dsimp only
  omega

theorem c2_amended_witness :
    ((5 : ℤ) ∣ 60) ∧ (5 : ℤ) ∣ minutePart (dropStartMin 0 ⟨9, 22, 300, 5⟩ 60) :=
  ⟨⟨12, rfl⟩, c2_amended_snap5_minute_divisible 0 300 9 22 60 ⟨12, rfl⟩⟩

/-- C3 counterexample: with an 800-minute act in the 9-to-22 window, the
snapped new start 540 exceeds `endHour*60 - duration = 520`, yet the
resulting start minute is 540, not 520: when the duration does not fit
the window, `Math.max` wins and the upper clamp bound is not honoured. -/
theorem c3_clamping_counterexample :
    9 * 60 + snappedMinutes 0 ⟨9, 22, 300, 5⟩ > 22 * 60 - 800 ∧
    dropStartMin 0 ⟨9, 22, 300, 5⟩ 800 = 540 ∧
    ((540 : ℤ) ≠ 22 * 60 - 800) := by
  refine ⟨?_, ?_, by decide⟩
  · norm_num [snappedMinutes, minutesFromStart, jsRound]
  · norm_num [dropStartMin, snappedMinutes, minutesFromStart, jsRound]

/-- C3 amended: in every drop, a snapped new start minute below
`startHour*60` resolves to exactly `startHour*60`; a snapped new start
minute above `endHour*60 - duration` resolves to exactly
`endHour*60 - duration` provided the duration fits the window
(`startHour*60 ≤ endHour*60 - duration`). -/
theorem c3_amended_clamping_bounds (relativeY pph : ℚ) (snap s e d : ℤ) :
    (s * 60 + snappedMinutes relativeY ⟨s, e, pph, snap⟩ < s * 60 →
      dropStartMin relativeY ⟨s, e, pph, snap⟩ d = s * 60) ∧
    (s * 60 ≤ e * 60 - d →
      s * 60 + snappedMinutes relativeY ⟨s, e, pph, snap⟩ > e * 60 - d →
      dropStartMin relativeY ⟨s, e, pph, snap⟩ d = e * 60 - d) := by
  rw [dropStartMin]
  dsimp only
  omega

theorem c3_amended_witness :
    dropStartMin (-10000) ⟨9, 22, 300, 5⟩ 60 = 9 * 60 ∧
    dropStartMin 1000000 ⟨9, 22, 300, 5⟩ 60 = 22 * 60 - 60 :=
  ⟨(c3_amended_clamping_bounds (-10000) 300 5 9 22 60).1
      (by norm_num [snappedMinutes, minutesFromStart, jsRound]),
    (c3_amended_clamping_bounds 1000000 300 5 9 22 60).2 (by decide)
      (by norm_num [snappedMinutes, minutesFromStart, jsRound])⟩

/-- C4 counterexample: an act from 09:00 to 23:00 (840 minutes) dropped
into the window `{startHour: 22, endHour: 23}` gets clamped start 22:00
and end `22:00 + 840 min = 36:00`, which `formatTime` wraps to `"12:00"`;
minute-of-day subtraction on the new strings gives -600, not 840. -/
theorem c4_duration_counterexample :
    durationFromStrings
        (dropUpdateAct ⟨"act-1", "stage-1", "Opening", "09:00", "23:00", "#3b82f6", ""⟩
          "stage-1" 0 ⟨22, 23, 300, 5⟩).startTime
        (dropUpdateAct ⟨"act-1", "stage-1", "Opening", "09:00", "23:00", "#3b82f6", ""⟩
          "stage-1" 0 ⟨22, 23, 300, 5⟩).endTime = some (-600) ∧
    durationFromStrings "09:00" "23:00" = some 840 ∧
    (some (-600 : ℤ) ≠ some (840 : ℤ)) := by
  have h1 : dropNewTimes ⟨"act-1", "stage-1", "Opening", "09:00", "23:00", "#3b82f6", ""⟩
      0 ⟨22, 23, 300, 5⟩ = (formatTime 1320, formatTime 2160) := by
    rw [dropNewTimes, show parseTime (Act.startTime
        ⟨"act-1", "stage-1", "Opening", "09:00", "23:00", "#3b82f6", ""⟩) = some (9, 0) from
        by decide,
      show parseTime (Act.endTime
        ⟨"act-1", "stage-1", "Opening", "09:00", "23:00", "#3b82f6", ""⟩) = some (23, 0) from
        by decide]
    norm_num [dropStartMin, snappedMinutes, minutesFromStart, jsRound]
  refine ⟨?_, by decide, by decide⟩
  rw [show (dropUpdateAct ⟨"act-1", "stage-1", "Opening", "09:00", "23:00", "#3b82f6", ""⟩
        "stage-1" 0 ⟨22, 23, 300, 5⟩).startTime =
      (dropNewTimes ⟨"act-1", "stage-1", "Opening", "09:00", "23:00", "#3b82f6", ""⟩
        0 ⟨22, 23, 300, 5⟩).1 from rfl,
    show (dropUpdateAct ⟨"act-1", "stage-1", "Opening", "09:00", "23:00", "#3b82f6", ""⟩
        "stage-1" 0 ⟨22, 23, 300, 5⟩).endTime =
      (dropNewTimes ⟨"act-1", "stage-1", "Opening", "09:00", "23:00", "#3b82f6", ""⟩
        0 ⟨22, 23, 300, 5⟩).2 from rfl,
    h1]
  decide

/-- C4 amended: `handleDrop` preserves the act's duration in
minute-of-day subtraction provided the window is an in-day window
(`0 ≤ startHour`, `endHour ≤ 23`) and the act's duration fits the window
(`duration ≤ (endHour - startHour)*60`); otherwise the 24-hour wrap of
`formatTime` breaks the subtraction, as the counterexample shows. -/
theorem c4_amended_duration_preserved (act : Act) (stageId : String) (relativeY pph : ℚ)
    (snap s e : ℤ) (cH cM eH eM : ℕ)
    (hcH : cH < 24) (hcM : cM < 60) (heH : eH < 24) (heM : eM < 60)
    (hst : act.startTime = mkTime cH cM) (het : act.endTime = mkTime eH eM)
    (hpos : (cH : ℤ) * 60 + cM < (eH : ℤ) * 60 + eM)
    (hs0 : 0 ≤ s) (he23 : e ≤ 23)
    (hfit : ((eH : ℤ) * 60 + eM) - ((cH : ℤ) * 60 + cM) ≤ (e - s) * 60) :
    durationFromStrings (dropUpdateAct act stageId relativeY ⟨s, e, pph, snap⟩).startTime
        (dropUpdateAct act stageId relativeY ⟨s, e, pph, snap⟩).endTime
      = durationFromStrings act.startTime act.endTime := by
  have hps : parseTime act.startTime = some (cH, cM) := by
    rw [hst]; exact parseTime_mkTime _ _ (by omega) (by omega)
  have hpe : parseTime act.endTime = some (eH, eM) := by
    rw [het]; exact parseTime_mkTime _ _ (by omega) (by omega)
  have hnew : dropNewTimes act relativeY ⟨s, e, pph, snap⟩ =
      (formatTime (dropStartMin relativeY ⟨s, e, pph, snap⟩
          (((eH : ℤ) * 60 + eM) - ((cH : ℤ) * 60 + cM))),
        formatTime (dropStartMin relativeY ⟨s, e, pph, snap⟩
          (((eH : ℤ) * 60 + eM) - ((cH : ℤ) * 60 + cM)) +
          (((eH : ℤ) * 60 + eM) - ((cH : ℤ) * 60 + cM)))) := by
    rw [dropNewTimes, hps, hpe]
  have hXlo : s * 60 ≤ dropStartMin relativeY ⟨s, e, pph, snap⟩
      (((eH : ℤ) * 60 + eM) - ((cH : ℤ) * 60 + cM)) := by
    rw [dropStartMin]; dsimp only; omega
  have hXhi : dropStartMin relativeY ⟨s, e, pph, snap⟩
      (((eH : ℤ) * 60 + eM) - ((cH : ℤ) * 60 + cM)) ≤
      e * 60 - (((eH : ℤ) * 60 + eM) - ((cH : ℤ) * 60 + cM)) := by
    rw [dropStartMin]; dsimp only; omega
  have hf1 := parseTime_formatTime (dropStartMin relativeY ⟨s, e, pph, snap⟩
      (((eH : ℤ) * 60 + eM) - ((cH : ℤ) * 60 + cM))).toNat
  rw [Int.toNat_of_nonneg (by omega)] at hf1
  have hf2 := parseTime_formatTime (dropStartMin relativeY ⟨s, e, pph, snap⟩
      (((eH : ℤ) * 60 + eM) - ((cH : ℤ) * 60 + cM)) +
      (((eH : ℤ) * 60 + eM) - ((cH : ℤ) * 60 + cM))).toNat
  rw [Int.toNat_of_nonneg (by omega)] at hf2
  rw [show (dropUpdateAct act stageId relativeY ⟨s, e, pph, snap⟩).startTime =
      (dropNewTimes act relativeY ⟨s, e, pph, snap⟩).1 from rfl,
    show (dropUpdateAct act stageId relativeY ⟨s, e, pph, snap⟩).endTime =
      (dropNewTimes act relativeY ⟨s, e, pph, snap⟩).2 from rfl,
    hnew]
  simp only [durationFromStrings, hf1, hf2, hps, hpe, Option.some.injEq]
  omega

theorem c4_amended_witness :
    ("10:00" = mkTime 10 0) ∧ ("11:00" = mkTime 11 0) ∧
    durationFromStrings
        (dropUpdateAct ⟨"act-1", "stage-1", "Opening", "10:00", "11:00", "#3b82f6", ""⟩
          "stage-2" 0 ⟨9, 22, 300, 5⟩).startTime
        (dropUpdateAct ⟨"act-1", "stage-1", "Opening", "10:00", "11:00", "#3b82f6", ""⟩
          "stage-2" 0 ⟨9, 22, 300, 5⟩).endTime
      = durationFromStrings "10:00" "11:00" :=
  ⟨by decide, by decide, by
    exact c4_amended_duration_preserved
      ⟨"act-1", "stage-1", "Opening", "10:00", "11:00", "#3b82f6", ""⟩
      "stage-2" 0 300 5 9 22 10 0 11 0 (by decide) (by decide) (by decide) (by decide)
      (by decide) (by decide) (by decide) (by decide) (by decide) (by decide)⟩

theorem c8_settings_witness :
    ((⟨9, 22, 300, 5⟩ : Config).startHour < (⟨9, 22, 300, 5⟩ : Config).endHour) ∧
    (((10 : ℤ) ≥ 20 →
        handleSettingsSubmit ⟨9, 22, 300, 5⟩ ⟨9, 22⟩ 10 20 = (⟨9, 22, 300, 5⟩, ⟨9, 22⟩)) ∧
      ((10 : ℤ) < 20 →
        (handleSettingsSubmit ⟨9, 22, 300, 5⟩ ⟨9, 22⟩ 10 20).1.startHour = 10 ∧
        (handleSettingsSubmit ⟨9, 22, 300, 5⟩ ⟨9, 22⟩ 10 20).1.endHour = 20 ∧
        (handleSettingsSubmit ⟨9, 22, 300, 5⟩ ⟨9, 22⟩ 10 20).2.startHour = 10 ∧
        (handleSettingsSubmit ⟨9, 22, 300, 5⟩ ⟨9, 22⟩ 10 20).2.endHour = 20) ∧
      (handleSettingsSubmit ⟨9, 22, 300, 5⟩ ⟨9, 22⟩ 10 20).1.startHour <
        (handleSettingsSubmit ⟨9, 22, 300, 5⟩ ⟨9, 22⟩ 10 20).1.endHour) :=
  ⟨by decide, c8_settings_invariant ⟨9, 22, 300, 5⟩ ⟨9, 22⟩ 10 20 (by decide)⟩

lemma findAct_decomp (actId : String) (a2 : Act) :
    ∀ (l : List Act) (act : Act), findAct actId l = some act →
      ∃ pre post, l = pre ++ act :: post ∧ (∀ b ∈ pre, ¬ (b.id = actId)) ∧
        replaceFirstAct actId a2 l = pre ++ a2 :: post := by
  intro l
  induction l with
  | nil => intro act h; simp [findAct] at h
  | cons a rest ih =>
    intro act h
    by_cases ha : a.id = actId
    · rw [findAct, if_pos ha] at h
      obtain rfl : a = act := Option.some.inj h
      refine ⟨[], rest, rfl, by simp, ?_⟩
      rw [replaceFirstAct, if_pos ha]
      rfl
    · rw [findAct, if_neg ha] at h
      obtain ⟨pre, post, h1, h2, h3⟩ := ih act h
      refine ⟨a :: pre, post, ?_, ?_, ?_⟩
      · rw [h1]; rfl
      · intro b hb
        rcases List.mem_cons.mp hb with hb1 | hbp
        · rw [hb1]; exact ha
        · exact h2 b hbp
      · rw [replaceFirstAct, if_neg ha, h3]
        exact rfl

/-- C9: a drop whose dragged act id is found in the acts array changes at
most that act's `stageId`, `startTime` and `endTime`: its `id`, `name`,
`color` and `category` are unchanged, every other act, the stages and the
members are unchanged, and the acts array keeps its length and element
order. -/
theorem c9_drop_frame_condition (st : AppState) (dragActId stageId : String)
    (relativeY : ℚ) (cfg : Config) (act : Act)
    (hfind : findAct dragActId st.acts = some act) :
    (handleDrop st dragActId stageId relativeY cfg).stages = st.stages ∧
    (handleDrop st dragActId stageId relativeY cfg).members = st.members ∧
    (handleDrop st dragActId stageId relativeY cfg).acts.length = st.acts.length ∧
    ∃ pre a2 post, st.acts = pre ++ act :: post ∧
      (handleDrop st dragActId stageId relativeY cfg).acts = pre ++ a2 :: post ∧
      (∀ b ∈ pre, ¬ (b.id = dragActId)) ∧
      a2.id = act.id ∧ a2.name = act.name ∧ a2.color = act.color ∧
      a2.category = act.category := by
  by_cases hempty : dragActId = ""
  · rw [handleDrop, if_pos hempty]
    obtain ⟨pre, post, h1, h2, _⟩ := findAct_decomp dragActId act st.acts act hfind
    exact ⟨rfl, rfl, rfl, pre, act, post, h1, h1, h2, rfl, rfl, rfl, rfl⟩
  · rw [handleDrop, if_neg hempty, hfind]
    obtain ⟨pre, post, h1, h2, h3⟩ :=
      findAct_decomp dragActId (dropUpdateAct act stageId relativeY cfg) st.acts act hfind
    have hlen : (replaceFirstAct dragActId (dropUpdateAct act stageId relativeY cfg)
        st.acts).length = st.acts.length := by
      rw [h3, h1]
      simp
    exact ⟨rfl, rfl, hlen, pre, dropUpdateAct act stageId relativeY cfg, post, h1, h3, h2,
      rfl, rfl, rfl, rfl⟩

theorem c9_drop_frame_witness :
    (findAct "act-1" [⟨"act-1", "stage-1", "Opening", "10:00", "11:00", "#3b82f6", ""⟩] =
      some ⟨"act-1", "stage-1", "Opening", "10:00", "11:00", "#3b82f6", ""⟩) ∧
    ((handleDrop ⟨[⟨"stage-1", "Main Stage"⟩],
        [⟨"act-1", "stage-1", "Opening", "10:00", "11:00", "#3b82f6", ""⟩], []⟩
        "act-1" "stage-2" 0 ⟨9, 22, 300, 5⟩).stages = [⟨"stage-1", "Main Stage"⟩] ∧
      (handleDrop ⟨[⟨"stage-1", "Main Stage"⟩],
        [⟨"act-1", "stage-1", "Opening", "10:00", "11:00", "#3b82f6", ""⟩], []⟩
        "act-1" "stage-2" 0 ⟨9, 22, 300, 5⟩).members = [] ∧
      (handleDrop ⟨[⟨"stage-1", "Main Stage"⟩],
        [⟨"act-1", "stage-1", "Opening", "10:00", "11:00", "#3b82f6", ""⟩], []⟩
        "act-1" "stage-2" 0 ⟨9, 22, 300, 5⟩).acts.length =
        ([⟨"act-1", "stage-1", "Opening", "10:00", "11:00", "#3b82f6", ""⟩] : List Act).length ∧
      ∃ (pre : List Act) (a2 : Act) (post : List Act),
        ([⟨"act-1", "stage-1", "Opening", "10:00", "11:00", "#3b82f6", ""⟩] : List Act) =
          pre ++ ⟨"act-1", "stage-1", "Opening", "10:00", "11:00", "#3b82f6", ""⟩ :: post ∧
        (handleDrop ⟨[⟨"stage-1", "Main Stage"⟩],
          [⟨"act-1", "stage-1", "Opening", "10:00", "11:00", "#3b82f6", ""⟩], []⟩
          "act-1" "stage-2" 0 ⟨9, 22, 300, 5⟩).acts = pre ++ a2 :: post ∧
        (∀ b ∈ pre, ¬ (b.id = "act-1")) ∧
        a2.id = "act-1" ∧ a2.name = "Opening" ∧ a2.color = "#3b82f6" ∧
        a2.category = "") :=
  ⟨by decide,
    c9_drop_frame_condition
      ⟨[⟨"stage-1", "Main Stage"⟩],
        [⟨"act-1", "stage-1", "Opening", "10:00", "11:00", "#3b82f6", ""⟩], []⟩
      "act-1" "stage-2" 0 ⟨9, 22, 300, 5⟩
      ⟨"act-1", "stage-1", "Opening", "10:00", "11:00", "#3b82f6", ""⟩ (by decide)⟩

/-- C10: `handleIndividualExportSubmit` selects exactly the acts whose
comma-split, whitespace-trimmed category entries contain one of the
member's team names under exact string equality; an act with an empty
category is never selected, and a team name that only occurs as a
substring or prefix of an entry never matches. -/
theorem c10_individual_export_exact_match (member : Member) (acts : List Act) (a : Act) :
    a ∈ handleIndividualExportActs member acts ↔
      a ∈ acts ∧ a.category ≠ "" ∧
        ∃ team ∈ member.teams, team ∈ (jsSplit ',' a.category).map jsTrim := by
  rw [handleIndividualExportActs, List.mem_filter]
  constructor
  · rintro ⟨hmem, hcond⟩
    by_cases hc : a.category = ""
    · rw [if_pos hc] at hcond
      exact absurd hcond (by simp)
    · rw [if_neg hc] at hcond
      obtain ⟨team, hteam, hin⟩ := List.any_eq_true.mp hcond
      exact ⟨hmem, hc, team, hteam, List.elem_iff.mp hin⟩
  · rintro ⟨hmem, hc, team, hteam, hin⟩
    refine ⟨hmem, ?_⟩
    rw [if_neg hc]
    exact List.any_eq_true.mpr ⟨team, hteam, List.elem_iff.mpr hin⟩

